import Mathlib

/-!
Verification of the go-automapper repository (`src/mapper.go`).

The Go code is a reflection-driven structural mapper.  We shallowly embed
the reflection layer: Go runtime types become the inductive `Ty`, runtime
values become the inductive `Value`, and every function of `mapper.go`
(`Mapper.Map`, `mapValues`, `mapField`, `findSourceField`, `mapSlice`,
`checkArrayTypesAreCompatible`, `isIntType`, `isUintType`, `isFloatType`,
`fuzzy`, `includes`, `formattedDestFieldName`, `formattedSourceFieldName`,
`valueIsNil`, `Result.addError`, `Result.scopedFieldName`) is translated
one-for-one.  Go panics are modelled as a pending-panic `Option String`
threaded through the traversal (the `recover` in `mapField` consumes it);
machine integers are `Int`/`Nat` with explicit two's-complement wraparound
(`Int.bmod` / `% 2^w`).  The mutual recursion of the traversal engine goes
through `checkArrayTypesAreCompatible`, which enlarges the destination type
(`[]T` becomes `*[]T`), so the engine takes a fuel argument; `none` means
the fuel ran out, `some` is the faithful result.

Modelling notes (corners no claim depends on):
  * Go renders anonymous struct types with their full field list in error
    messages; `tyString` renders them as the fixed token "struct".
  * `reflect.Value.Len`/`Index` also work on strings (mapping a string into
    a slice maps its bytes); sources of kind string reaching `mapSlice` are
    modelled as the reflection panic instead.  No claim involves them.
  * float payloads are abstract bit patterns; the rounding performed by a
    float64-to-float32 narrowing is not modelled (no claim evaluates it).
  * the exact kind word inside reflection panic messages (for example
    "reflect: call of reflect.Value.NumField on string Value") is modelled
    as a fixed non-struct message.
-/

namespace GoMapper

/-- Go `reflect.Kind`, restricted to the kinds `mapper.go` dispatches on. -/
inductive Kind where
  | kstruct : Kind
  | kptr : Kind
  | kslice : Kind
  | kprim : Kind
deriving DecidableEq, Repr

mutual
/-- A Go runtime type (`reflect.Type`) as used by `mapper.go`:
primitive/defined scalar types are identified by their `Name()`, struct
types carry package path, name and field list, pointer and slice types
carry their element type. -/
inductive Ty where
  | prim : String → Ty
  | tstruct : String → String → TFields → Ty
  | tptr : Ty → Ty
  | tslice : Ty → Ty
deriving Repr, DecidableEq

/-- A list of struct-field descriptors (`reflect.StructField` list). -/
inductive TFields where
  | nil : TFields
  | cons : TField → TFields → TFields
deriving Repr, DecidableEq

/-- One `reflect.StructField`: declared name, `Anonymous` flag, struct tag
(as key/value pairs, `Tag.Lookup` is list lookup), field type. -/
inductive TField where
  | mk : String → Bool → List (String × String) → Ty → TField
deriving Repr, DecidableEq
end

mutual
/-- A Go runtime value (`reflect.Value`).  Scalar values carry their type
name: `vint "int8" (-3)` is the Go value `int8(-3)`; `vprim` is any other
named scalar with an opaque payload.  Pointers carry their pointee type so
typed nil pointers exist; slices carry their element type. -/
inductive Value where
  | vint : String → Int → Value
  | vuint : String → Nat → Value
  | vfloat : String → Nat → Value
  | vstr : String → Value
  | vprim : String → Nat → Value
  | vstruct : String → String → VFields → Value
  | vptr : Ty → Option Value → Value
  | vslice : Ty → VList → Value
deriving Repr

/-- Field values of a struct value, with the field metadata alongside. -/
inductive VFields where
  | nil : VFields
  | cons : VField → VFields → VFields
deriving Repr

/-- One struct-field slot: name, `Anonymous` flag, tag, current value. -/
inductive VField where
  | mk : String → Bool → List (String × String) → Value → VField
deriving Repr

/-- Elements of a slice value. -/
inductive VList where
  | nil : VList
  | cons : Value → VList → VList
deriving Repr
end

mutual
/-- Boolean equality of types; Go type identity (`destType == sourceVal.Type()`). -/
def Ty.beq : Ty → Ty → Bool
  | .prim a, .prim b => a == b
  | .tstruct p n fs, .tstruct p' n' fs' => p == p' && n == n' && TFields.beq fs fs'
  | .tptr a, .tptr b => Ty.beq a b
  | .tslice a, .tslice b => Ty.beq a b
  | _, _ => false

def TFields.beq : TFields → TFields → Bool
  | .nil, .nil => true
  | .cons f fs, .cons g gs => TField.beq f g && TFields.beq fs gs
  | _, _ => false

def TField.beq : TField → TField → Bool
  | .mk n a t ty, .mk n' a' t' ty' => n == n' && a == a' && t == t' && Ty.beq ty ty'
end

mutual
/-- `reflect.Value.Type()`. -/
def tyOf : Value → Ty
  | .vint n _ => .prim n
  | .vuint n _ => .prim n
  | .vfloat n _ => .prim n
  | .vstr _ => .prim "string"
  | .vprim n _ => .prim n
  | .vstruct p n fs => .tstruct p n (tyOfFields fs)
  | .vptr t _ => .tptr t
  | .vslice t _ => .tslice t

def tyOfFields : VFields → TFields
  | .nil => .nil
  | .cons (.mk n a t v) fs => .cons (.mk n a t (tyOf v)) (tyOfFields fs)
end

/-- `reflect.Type.Kind()`, restricted to the kinds the mapper dispatches on. -/
def Ty.kind : Ty → Kind
  | .prim _ => .kprim
  | .tstruct _ _ _ => .kstruct
  | .tptr _ => .kptr
  | .tslice _ => .kslice

/-- `reflect.Type.Name()` (empty for pointer and slice types, as in Go). -/
def Ty.name : Ty → String
  | .prim n => n
  | .tstruct _ n _ => n
  | .tptr _ => ""
  | .tslice _ => ""

/-- `reflect.Type.PkgPath()`. -/
def Ty.pkgPath : Ty → String
  | .tstruct p _ _ => p
  | _ => ""

/-- Last component of a package path, used by Go's type printer. -/
def pkgBase (p : String) : String :=
  (p.splitOn "/").getLastD p

/-- Go's `%s`/`%v` rendering of a `reflect.Type` (anonymous struct types are
rendered as the fixed token "struct"; Go prints their field list). -/
def tyString : Ty → String
  | .prim n => n
  | .tstruct p n _ =>
      if n == "" then "struct"
      else if p == "" then n else pkgBase p ++ "." ++ n
  | .tptr t => "*" ++ tyString t
  | .tslice t => "[]" ++ tyString t

/-- The names of the predeclared signed integer types (`isIntType`'s switch). -/
def intNames : List String := ["int", "int8", "int16", "int32", "int64"]

/-- The names of the predeclared unsigned integer types (`isUintType`'s switch). -/
def uintNames : List String := ["uint", "uint8", "uint16", "uint32", "uint64"]

/-- The names of the predeclared float types (`isFloatType`'s switch). -/
def floatNames : List String := ["float32", "float64"]

/-- Bit width of a predeclared integer type name (Go `int`/`uint` are 64-bit). -/
def intWidth : String → Nat
  | "int8" => 8
  | "int16" => 16
  | "int32" => 32
  | "uint8" => 8
  | "uint16" => 16
  | "uint32" => 32
  | _ => 64

/-- `isIntType`: true plus the `int64`-converted value when the value's type
name is a predeclared signed integer type. -/
def isIntType : Value → Bool × Int
  | .vint n v => if intNames.contains n then (true, v) else (false, 0)
  | _ => (false, 0)

/-- `isUintType`: true plus the `uint64`-converted value when the value's
type name is a predeclared unsigned integer type. -/
def isUintType : Value → Bool × Nat
  | .vuint n v => if uintNames.contains n then (true, v) else (false, 0)
  | _ => (false, 0)

/-- `isFloatType`: true plus the `float64`-converted payload when the
value's type name is a predeclared float type. -/
def isFloatType : Value → Bool × Nat
  | .vfloat n v => if floatNames.contains n then (true, v) else (false, 0)
  | _ => (false, 0)

/-- `reflect.Value.SetInt`: stores an `int64`, truncating to the
destination's width per two's complement (`Int.bmod`). -/
def setIntVal : Value → Int → Value
  | .vint n _, x => .vint n (Int.bmod x (2 ^ intWidth n))
  | v, _ => v

/-- `reflect.Value.SetUint`: stores a `uint64`, truncating modulo `2^w`. -/
def setUintVal : Value → Nat → Value
  | .vuint n _, x => .vuint n (x % 2 ^ intWidth n)
  | v, _ => v

/-- `reflect.Value.SetFloat` (the float64-to-float32 rounding of a
narrowing store is not modelled; the abstract payload is kept). -/
def setFloatVal : Value → Nat → Value
  | .vfloat n _, x => .vfloat n x
  | v, _ => v

/-- Go's `int64(u)` reinterpretation of a `uint64` as signed. -/
def int64OfUint64 (u : Nat) : Int := Int.bmod (u : Int) (2 ^ 64)

mutual
/-- `reflect.New(t).Elem()`: the zero value of a type. -/
def zeroValue : Ty → Value
  | .prim n =>
      if intNames.contains n then .vint n 0
      else if uintNames.contains n then .vuint n 0
      else if floatNames.contains n then .vfloat n 0
      else if n == "string" then .vstr ""
      else .vprim n 0
  | .tstruct p n fs => .vstruct p n (zeroFields fs)
  | .tptr t => .vptr t none
  | .tslice t => .vslice t .nil

/-- Zero values of a struct's fields. -/
def zeroFields : TFields → VFields
  | .nil => .nil
  | .cons (.mk n a t ty) fs => .cons (.mk n a t (zeroValue ty)) (zeroFields fs)
end

/-- `valueIsNil`: nil test that does not panic on non-pointers. -/
def valueIsNil : Value → Bool
  | .vptr _ none => true
  | _ => false

/-- `CustomFieldMapper`: consulted with (sourceVal, sourceType, destVal,
destType); `some d'` models `handled = true` with the destination rewritten
to `d'`, `none` models `handled = false` (nothing touched). -/
def CustomFieldMapper : Type :=
  Value → Ty → Value → Ty → Option Value

/-- The `Mapper` configuration struct. -/
structure Mapper where
  PanicOnMissingField : Bool := false
  PanicOnIncompatibleTypes : Bool := false
  FieldNameMaps : List (String × String) := []
  IgnoreCase : Bool := false
  SourceTag : String := ""
  DestTag : String := ""
  FuzzyMatchFieldNames : Bool := false
  CustomMappers : List CustomFieldMapper := []
  IgnoreDestFields : List String := []

/-- `DefaultMapper`: both failure switches on. -/
def DefaultMapper : Mapper :=
  { PanicOnIncompatibleTypes := true, PanicOnMissingField := true }

/-- The `Result` struct returned by `Map` (errors are the messages of the
`errors.New` values). -/
structure Result where
  MissingSourceFields : List String := []
  Errors : List String := []
  scope : List String := []
deriving Repr, DecidableEq

/-- `Result.addError`. -/
def Result.addError (r : Result) (errMsg : String) : Result :=
  { r with Errors := r.Errors ++ [errMsg] }

/-- `Result.scopedFieldName`: the dotted path to the current field. -/
def Result.scopedFieldName (r : Result) : String :=
  String.intercalate "." r.scope

/-- `Mapper.fuzzy`: lowercase and strip underscores under
`FuzzyMatchFieldNames`, lowercase only under `IgnoreCase`, else identity. -/
def Mapper.fuzzy (m : Mapper) (f : String) : String :=
  if m.FuzzyMatchFieldNames then (f.replace "_" "").toLower
  else if m.IgnoreCase then f.toLower
  else f

/-- `Mapper.includes`: membership in a string list up to `fuzzy`. -/
def Mapper.includes (m : Mapper) (strs : List String) (str : String) : Bool :=
  strs.any (fun s => m.fuzzy s == m.fuzzy str)

/-- `reflect.StructTag.Lookup` over the modelled key/value tag list. -/
def tagLookup (tags : List (String × String)) (key : String) : Option String :=
  (tags.find? (fun kv => kv.1 == key)).map (fun kv => kv.2)

/-- The portion of a tag value before the first comma
(`strings.Split(f, ",")[0]`). -/
def tagHead (v : String) : String :=
  (v.splitOn ",").headD ""

/-- The rename loop of `formattedDestFieldName`:
`for k, v := range m.FieldNameMaps { if m.fuzzy(v) == fieldName { return m.fuzzy(k) } }`
(the Go map is modelled as an association list scanned in order). -/
def renameLookup (m : Mapper) (fieldName : String) : List (String × String) → String
  | [] => fieldName
  | (k, v) :: rest =>
      if m.fuzzy v == fieldName then m.fuzzy k else renameLookup m fieldName rest

/-- `formattedDestFieldName`: destination tag name if configured and
present, else declared name; fuzzied; then reverse rename-table lookup. -/
def Mapper.formattedDestFieldName (m : Mapper) (f : TField) : String :=
  match f with
  | .mk name _ tags _ =>
      let fieldName :=
        if m.DestTag.length > 0 then
          match tagLookup tags m.DestTag with
          | some v => tagHead v
          | none => name
        else name
      let fieldName := m.fuzzy fieldName
      renameLookup m fieldName m.FieldNameMaps

/-- `formattedSourceFieldName`: source tag name if configured and present,
else declared name; fuzzied.  The rename table is not consulted. -/
def Mapper.formattedSourceFieldName (m : Mapper) (f : TField) : String :=
  match f with
  | .mk name _ tags _ =>
      let fieldName :=
        if m.SourceTag.length > 0 then
          match tagLookup tags m.SourceTag with
          | some v => tagHead v
          | none => name
        else name
      m.fuzzy fieldName

/-- Panic message for `reflect.Value.NumField` on a non-struct value (Go
names the actual kind; modelled as a fixed message). -/
def numFieldPanicMsg : String :=
  "reflect: call of reflect.Value.NumField on non-struct Value"

/-- Panic message for `reflect.Value.Len` on a non-slice value. -/
def lenPanicMsg : String :=
  "reflect: call of reflect.Value.Len on non-slice Value"

/-- First direct source field (declaration order) whose formatted name is
`destName`; the first scan loop of `findSourceField`. -/
def findDirect (m : Mapper) (destName : String) : VFields → Option Value
  | .nil => none
  | .cons (.mk name anon tags v) rest =>
      if m.formattedSourceFieldName (.mk name anon tags (tyOf v)) == destName then some v
      else findDirect m destName rest

mutual
/-- `findSourceField`: resolve one destination field against a source
record.  `.error` is a propagating reflection panic; `.ok (r, none)` is
"no source field" (ignored fields silently, otherwise with the scoped name
appended to `MissingSourceFields`). -/
def Mapper.findSourceField (m : Mapper) (result : Result) (source : Value)
    (destFieldType : TField) : Except String (Result × Option Value) :=
  let destFieldName := m.formattedDestFieldName destFieldType
  if m.includes m.IgnoreDestFields destFieldName then .ok (result, none)
  else
    match source with
    | .vstruct _ _ fields =>
        match findDirect m destFieldName fields with
        | some v => .ok (result, some v)
        | none =>
            match probeAnonFields m destFieldType fields with
            | .error p => .error p
            | .ok (some v) => .ok (result, some v)
            | .ok none =>
                .ok ({ result with
                        MissingSourceFields :=
                          result.MissingSourceFields ++ [result.scopedFieldName] },
                     none)
    | _ => .error numFieldPanicMsg

/-- The second loop of `findSourceField`: probe anonymous struct-typed
source fields recursively, with a throwaway `Result`. -/
def probeAnonFields (m : Mapper) (destFieldType : TField) :
    VFields → Except String (Option Value)
  | .nil => .ok none
  | .cons (.mk _ anon _ v) rest =>
      if anon && (tyOf v).kind == Kind.kstruct then
        match m.findSourceField {} v destFieldType with
        | .error p => .error p
        | .ok (_, some sv) => .ok (some sv)
        | .ok (_, none) => probeAnonFields m destFieldType rest
      else probeAnonFields m destFieldType rest
end

/-- Number of fields of a struct field list. -/
def TFields.length : TFields → Nat
  | .nil => 0
  | .cons _ fs => fs.length + 1

/-- Number of field slots of a struct value. -/
def VFields.length : VFields → Nat
  | .nil => 0
  | .cons _ fs => fs.length + 1

/-- `reflect.Value.NumField()` (0 off the struct case; the engine only
calls it under the struct-kind guard). -/
def numFieldsV : Value → Nat
  | .vstruct _ _ fs => fs.length
  | _ => 0

instance : Inhabited TField := ⟨.mk "" false [] (.prim "")⟩

/-- Indexed access into a field-descriptor list. -/
def TFields.get : TFields → Nat → TField
  | .nil, _ => default
  | .cons f _, 0 => f
  | .cons _ fs, i + 1 => fs.get i

/-- `reflect.Type.Field(i)`. -/
def tfieldAt (t : Ty) (i : Nat) : TField :=
  match t with
  | .tstruct _ _ fs => fs.get i
  | _ => default

/-- Declared name of a field descriptor. -/
def TField.fname : TField → String
  | .mk n _ _ _ => n

/-- Indexed access to a struct value's field value. -/
def VFields.getVal : VFields → Nat → Value
  | .nil, _ => .vprim "" 0
  | .cons (.mk _ _ _ v) _, 0 => v
  | .cons _ fs, i + 1 => fs.getVal i

/-- `reflect.Value.Field(i)`. -/
def vfieldValAt (v : Value) (i : Nat) : Value :=
  match v with
  | .vstruct _ _ fs => fs.getVal i
  | _ => .vprim "" 0

/-- Write a struct value's `i`-th field slot (in-place `Set` on the field). -/
def VFields.setVal : VFields → Nat → Value → VFields
  | .nil, _, _ => .nil
  | .cons (.mk n a t _) fs, 0, x => .cons (.mk n a t x) fs
  | .cons f fs, i + 1, x => .cons f (fs.setVal i x)

/-- Write field `i` of a struct value. -/
def setVFieldAt (v : Value) (i : Nat) (x : Value) : Value :=
  match v with
  | .vstruct p n fs => .vstruct p n (fs.setVal i x)
  | w => w

/-- `reflect.Value.Len()` of a slice value. -/
def vlistLength : VList → Nat
  | .nil => 0
  | .cons _ xs => vlistLength xs + 1

/-- `reflect.Type.Elem()` of a pointer or slice type. -/
def Ty.elemTy : Ty → Ty
  | .tptr t => t
  | .tslice t => t
  | _ => .prim ""

/-- Run the registered custom mappers in order; the first `handled` one
wins (`for _, mapper := range m.CustomMappers`). -/
def runCustomMappers : List CustomFieldMapper → Value → Ty → Value → Ty → Option Value
  | [], _, _, _, _ => none
  | f :: rest, s, st, d, dt =>
      match f s st d dt with
      | some d' => some d'
      | none => runCustomMappers rest s st d dt

/-- The incompatible-pair message of `mapValues`' final branch. -/
def incompatMsg (srcT destT : Ty) : String :=
  "Currently not supported (source " ++ tyString srcT ++ " -> dest " ++ tyString destT ++
    "), write a custom mapper for this. see CustomFieldMapper."

/-- The context wrapper `mapField`'s recover adds to a caught panic. -/
def fieldErrMsg (fieldName : String) (destT srcT : Ty) (p : String) : String :=
  "Error mapping field: " ++ fieldName ++ ". DestType: " ++ tyString destT ++
    ". SourceType: " ++ tyString srcT ++ ". Error: " ++ p

/-- Panic raised when the scope stack is empty after mapping a field. -/
def scopeZeroPanicMsg : String :=
  "Scope length is unexpectedly zero. You may be sharing a mapper across goroutines. Use one mapper per goroutine or lock access to it"

/-- Panic raised when the scope stack exceeds 200 entries. -/
def scopeTooLargePanicMsg : String :=
  "scope stack is too large. You may be sharing a mapper across goroutines. Use one mapper per goroutine or lock access to it"

/-- Panic message for `reflect.MakeSlice` of a non-slice type. -/
def makeSlicePanicMsg : String :=
  "reflect.MakeSlice of non-slice type"

/-- The source-dereference prologue of `mapValues` (mapper.go lines
92-103): when the destination is a struct type and the source is a
pointer, dereference it; a nil source pointer is first replaced by a fresh
zero instance of its pointee type so the traversal proceeds on zeroes. -/
def derefForStruct (destType : Ty) (sourceVal : Value) : Value :=
  if destType.kind == Kind.kstruct then
    match sourceVal with
    | .vptr te none => zeroValue te
    | .vptr _ (some v) => v
    | v => v
  else sourceVal

/-!
The traversal engine.  Each function takes fuel and returns `none` when it
runs out; otherwise `some (result, updatedDest, pendingPanic)`.  A pending
panic models a Go panic unwinding out of the call: the destination
component then holds whatever had been written in place before the panic
(Go mutates the destination through pointers), and `Mapper.mapField`'s
`recover` consumes or re-raises the panic.
-/

mutual
/-- `Mapper.mapValues`: the recursive traversal engine, dispatching in the
source order: dereference pointer sources of struct destinations (nil
becomes a fresh zero instance), custom mappers, pointer destinations, the
`time.Time` special case, struct destinations (field iteration), int /
uint / uint-to-int / float coercions, the identical-type copy, slices, and
finally the incompatible-pair failure. -/
def Mapper.mapValues (m : Mapper) :
    Nat → Result → Value → Value → Option (Result × Value × Option String)
  | 0, _, _, _ => none
  | fuel + 1, result, sourceVal0, destVal =>
    let destType := tyOf destVal
    let sourceVal := derefForStruct destType sourceVal0
    let sourceType := tyOf sourceVal
    match runCustomMappers m.CustomMappers sourceVal sourceType destVal destType with
    | some newDest => some (result, newDest, none)
    | none =>
      if destType.kind == Kind.kptr then
        if valueIsNil sourceVal then some (result, destVal, none)
        else
          match m.mapValues fuel result sourceVal (zeroValue destType.elemTy) with
          | none => none
          | some (r, _, some p) => some (r, destVal, some p)
          | some (r, v, none) => some (r, .vptr destType.elemTy (some v), none)
      else if destType.kind == Kind.kstruct && destType.pkgPath == "time" &&
          destType.name == "Time" && sourceType.kind == Kind.kstruct &&
          sourceType.pkgPath == "time" && sourceType.name == "Time" then
        some (result, sourceVal, none)
      else if destType.kind == Kind.kstruct then
        m.mapStructFields fuel result sourceVal destVal 0
      else if (isIntType sourceVal).fst && (isIntType destVal).fst then
        some (result, setIntVal destVal (isIntType sourceVal).snd, none)
      else if (isUintType sourceVal).fst && (isUintType destVal).fst then
        some (result, setUintVal destVal (isUintType sourceVal).snd, none)
      else if (isIntType destVal).fst && (isUintType sourceVal).fst then
        some (result, setIntVal destVal (int64OfUint64 (isUintType sourceVal).snd), none)
      else if (isFloatType sourceVal).fst && (isFloatType destVal).fst then
        some (result, setFloatVal destVal (isFloatType sourceVal).snd, none)
      else if Ty.beq destType sourceType then
        some (result, sourceVal, none)
      else if destType.kind == Kind.kslice then
        m.mapSlice fuel result sourceVal destVal
      else
        let errMsg := incompatMsg sourceType destType
        if m.PanicOnIncompatibleTypes then some (result, destVal, some errMsg)
        else some (result.addError errMsg, destVal, none)

/-- The struct-destination loop of `mapValues`: for each destination field
in declaration order push its declared name on the scope stack, map it, run
the two scope sanity checks, pop the scope.  A panic escaping `mapField`
leaves the loop (and the pushed scope entry) behind. -/
def Mapper.mapStructFields (m : Mapper) :
    Nat → Result → Value → Value → Nat → Option (Result × Value × Option String)
  | 0, _, _, _, _ => none
  | fuel + 1, result, sourceVal, destVal, i =>
    if i < numFieldsV destVal then
      let result := { result with scope := result.scope ++ [(tfieldAt (tyOf destVal) i).fname] }
      match m.mapField fuel result sourceVal destVal i with
      | none => none
      | some (r, d, some p) => some (r, d, some p)
      | some (r, d, none) =>
        if r.scope.length == 0 then some (r, d, some scopeZeroPanicMsg)
        else if r.scope.length > 200 then some (r, d, some scopeTooLargePanicMsg)
        else m.mapStructFields fuel { r with scope := r.scope.dropLast } sourceVal d (i + 1)
    else some (result, destVal, none)

/-- `Mapper.mapField`: map one struct field; any panic raised below (by
`findSourceField`'s reflection calls or by `mapValues`) is recovered,
wrapped with the field name and both struct type names, and re-raised or
recorded according to `PanicOnIncompatibleTypes`. -/
def Mapper.mapField (m : Mapper) :
    Nat → Result → Value → Value → Nat → Option (Result × Value × Option String)
  | 0, _, _, _, _ => none
  | fuel + 1, result, source, destVal, i =>
    let destType := tyOf destVal
    let inner : Option (Result × Value × Option String) :=
      match m.findSourceField result source (tfieldAt destType i) with
      | .error p => some (result, destVal, some p)
      | .ok (r1, none) => some (r1, destVal, none)
      | .ok (r1, some sourceField) =>
          match m.mapValues fuel r1 sourceField (vfieldValAt destVal i) with
          | none => none
          | some (r2, fv, pan) => some (r2, setVFieldAt destVal i fv, pan)
    match inner with
    | none => none
    | some (r, d, none) => some (r, d, none)
    | some (r, d, some p) =>
        let errMsg := fieldErrMsg (tfieldAt destType i).fname destType (tyOf source) p
        if m.PanicOnIncompatibleTypes then some (r, d, some errMsg)
        else some (r.addError errMsg, d, none)

/-- `Mapper.mapSlice`: allocate a same-length target, map the elements
1:1, validate the element types on a zero-length source, then store the
target into the destination. -/
def Mapper.mapSlice (m : Mapper) :
    Nat → Result → Value → Value → Option (Result × Value × Option String)
  | 0, _, _, _ => none
  | fuel + 1, result, sourceVal, destVal =>
    let destType := tyOf destVal
    match sourceVal with
    | .vslice _ elems =>
        match m.mapSliceElems fuel result elems destType.elemTy with
        | none => none
        | some (r, _, some p) => some (r, destVal, some p)
        | some (r, mapped, none) =>
            if vlistLength elems == 0 then
              match m.checkArrayTypesAreCompatible fuel r sourceVal destVal with
              | none => none
              | some (r2, some p) => some (r2, destVal, some p)
              | some (r2, none) => some (r2, .vslice destType.elemTy mapped, none)
            else some (r, .vslice destType.elemTy mapped, none)
    | _ => some (result, destVal, some lenPanicMsg)

/-- The element loop of `mapSlice`: each target element starts as a fresh
zero value of the destination element type and is mapped from the
corresponding source element. -/
def Mapper.mapSliceElems (m : Mapper) :
    Nat → Result → VList → Ty → Option (Result × VList × Option String)
  | 0, _, _, _ => none
  | _ + 1, result, .nil, _ => some (result, .nil, none)
  | fuel + 1, result, .cons x xs, elemT =>
      match m.mapValues fuel result x (zeroValue elemT) with
      | none => none
      | some (r, _, some p) => some (r, .nil, some p)
      | some (r, v, none) =>
          match m.mapSliceElems fuel r xs elemT with
          | none => none
          | some (r2, vs, pan) => some (r2, .cons v vs, pan)

/-- `Mapper.checkArrayTypesAreCompatible`: run a synthetic length-1 source
slice against a fresh `*[]T` destination purely for its errors; the dummy
objects are discarded. -/
def Mapper.checkArrayTypesAreCompatible (m : Mapper) :
    Nat → Result → Value → Value → Option (Result × Option String)
  | 0, _, _, _ => none
  | fuel + 1, result, sourceVal, destVal =>
      match sourceVal with
      | .vslice es _ =>
          let dummySource := Value.vslice es (.cons (zeroValue es) .nil)
          let dummyDest := Value.vptr (tyOf destVal) none
          match m.mapValues fuel result dummySource dummyDest with
          | none => none
          | some (r, _, pan) => some (r, pan)
      | _ => some (result, some makeSlicePanicMsg)
end

/-- The missing-fields summary message `Map` builds after traversal. -/
def missingMsg (missing : List String) : String :=
  "Missing fields from source struct: " ++ String.intercalate ", " missing

/-- `Mapper.Map`: the public entry point.  The destination must be a
pointer (else a fatal usage panic); after traversal, accumulated missing
source fields either abort the call (`PanicOnMissingField`) or are appended
to the error list as one combined message. -/
def Mapper.Map (m : Mapper) (fuel : Nat) (source dest : Value) :
    Option (Except String (Result × Value)) :=
  let result : Result := {}
  match dest with
  | .vptr t (some dv) =>
      match m.mapValues fuel result source dv with
      | none => none
      | some (_, _, some p) => some (.error p)
      | some (r, d', none) =>
          if r.MissingSourceFields.length > 0 then
            let errMsg := missingMsg r.MissingSourceFields
            if m.PanicOnMissingField then some (.error errMsg)
            else some (.ok (r.addError errMsg, .vptr t (some d')))
          else some (.ok (r, .vptr t (some d')))
  | .vptr _ none => some (.error "reflect: call of reflect.Value.Type on zero Value")
  | _ => some (.error "Dest must be a pointer type")

/-- The package-level `Map`: `DefaultMapper.Map`. -/
def MapDefault (fuel : Nat) (source dest : Value) : Option (Except String (Result × Value)) :=
  DefaultMapper.Map fuel source dest

/-- Evolution of a `Result` across one engine call: the missing-field and
error lists only grow, a normal return restores the scope stack, and a
panic propagating while the abort switch is off leaves the scope either
intact or beyond the 200-entry check. -/
def InvR (flag : Bool) (r r' : Result) (pan : Option String) : Prop :=
  (∃ a, r'.MissingSourceFields = r.MissingSourceFields ++ a) ∧
  (∃ b, r'.Errors = r.Errors ++ b) ∧
  (pan = none → r'.scope = r.scope) ∧
  (∀ p, pan = some p → flag = false → (r'.scope = r.scope ∨ r'.scope.length > 200))

/-- Evolution of a `Result` across `mapField` (the recover site): a
recovered panic can leave a dirty scope only beyond the 200-entry check,
and a re-raised panic forces the abort switch on. -/
def InvRF (flag : Bool) (r r' : Result) (pan : Option String) : Prop :=
  (∃ a, r'.MissingSourceFields = r.MissingSourceFields ++ a) ∧
  (∃ b, r'.Errors = r.Errors ++ b) ∧
  (pan = none → (r'.scope = r.scope ∨ r'.scope.length > 200)) ∧
  (∀ p, pan = some p → flag = true)

/-! ## Claim fixtures -/

/-- Source struct `{A int = 1}` for the missing-field timing claims. -/
def c1src : Value := .vstruct "" "" (.cons (.mk "A" false [] (.vint "int" 1)) .nil)

/-- Destination type `{B, C string; A int}`: two missing fields before a
mappable one. -/
def c1destTy : Ty := .tstruct "" ""
  (.cons (.mk "B" false [] (.prim "string"))
    (.cons (.mk "C" false [] (.prim "string"))
      (.cons (.mk "A" false [] (.prim "int")) .nil)))

/-- Source struct `{Foo string = "x"}`. -/
def c2src : Value := .vstruct "" "" (.cons (.mk "Foo" false [] (.vstr "x")) .nil)

/-- Destination type `{Foo int}`: incompatible with `c2src`'s `Foo`. -/
def c2destTy : Ty := .tstruct "" "" (.cons (.mk "Foo" false [] (.prim "int")) .nil)

/-- Destination type `{B string; Foo int}`: `B` is missing from `c2src`
(encountered first), `Foo` is incompatible (encountered second). -/
def c3destTy : Ty := .tstruct "" ""
  (.cons (.mk "B" false [] (.prim "string"))
    (.cons (.mk "Foo" false [] (.prim "int")) .nil))

/-- A named struct type `main.AB` with two int fields. -/
def c4ty : Ty := .tstruct "main" "AB"
  (.cons (.mk "A" false [] (.prim "int")) (.cons (.mk "B" false [] (.prim "int")) .nil))

/-- A `main.AB` value `{A = 1, B = 2}`. -/
def c4src : Value := .vstruct "main" "AB"
  (.cons (.mk "A" false [] (.vint "int" 1)) (.cons (.mk "B" false [] (.vint "int" 2)) .nil))

/-- The §4.2 step-1 destination-name computation, written from the claim's
wording: tag-derived name when a destination tag key is configured and the
field carries it, else the declared name; normalized; then, if the
normalized name equals the normalized value side of some rename-table
entry, the normalized key side is substituted. -/
def specDestFieldName (m : Mapper) (f : TField) : String :=
  match f with
  | .mk name _ tags _ =>
      let base :=
        if m.DestTag.length > 0 then
          match tagLookup tags m.DestTag with
          | some v => tagHead v
          | none => name
        else name
      let normalized := m.fuzzy base
      match m.FieldNameMaps.find? (fun kv => m.fuzzy kv.2 == normalized) with
      | some kv => m.fuzzy kv.1
      | none => normalized

/-! ## Substring machinery for reasoning about error-message contents -/

/-- `needle` is a prefix of `hay` (on character lists). -/
def listIsPre : List Char → List Char → Bool
  | [], _ => true
  | _ :: _, [] => false
  | a :: as, b :: bs => a == b && listIsPre as bs

/-- `needle` occurs somewhere inside `hay` (on character lists). -/
def listHasSub (needle : List Char) : List Char → Bool
  | [] => listIsPre needle []
  | b :: bs => listIsPre needle (b :: bs) || listHasSub needle bs

/-- `needle` is a substring of `hay`. -/
def strContains (hay needle : String) : Bool :=
  listHasSub needle.data hay.data

theorem listIsPre_self_append (n b : List Char) : listIsPre n (n ++ b) = true := by
  induction n with
  | nil => rfl
  | cons a as ih => simp [listIsPre, ih]

theorem listHasSub_mid (a n b : List Char) : listHasSub n (a ++ n ++ b) = true := by
  induction a with
  | nil =>
      cases n with
      | nil =>
          cases b with
          | nil => rfl
          | cons c cs => simp [listHasSub, listIsPre]
      | cons c cs =>
          simp only [List.nil_append, listHasSub, Bool.or_eq_true]
          exact Or.inl (listIsPre_self_append _ _)
  | cons c cs ih =>
      simp only [List.cons_append, listHasSub, Bool.or_eq_true]
      exact Or.inr ih

/-- A string built as `a ++ n ++ b` contains `n`. -/
theorem strContains_mid (a n b : String) : strContains (a ++ n ++ b) n = true := by
  have : (a ++ n ++ b).data = a.data ++ n.data ++ b.data := by
    simp [String.data_append]
  simp only [strContains, this]
  exact listHasSub_mid _ _ _

/-! ## Invariants of the field resolver and of the traversal engine -/

/-- `findSourceField` never touches the scope stack or the error list, and
either leaves the missing-field list alone or appends exactly the current
dotted scope path. -/
theorem findSourceField_inv (m : Mapper) (r : Result) (s : Value) (f : TField)
    (r' : Result) (ov : Option Value)
    (h : m.findSourceField r s f = .ok (r', ov)) :
    r'.scope = r.scope ∧ r'.Errors = r.Errors ∧
      (r'.MissingSourceFields = r.MissingSourceFields ∨
        r'.MissingSourceFields = r.MissingSourceFields ++ [r.scopedFieldName]) := by
  rw [Mapper.findSourceField.eq_def] at h
  cases s
  case vstruct p nm fields =>
      cases hb : m.includes m.IgnoreDestFields (m.formattedDestFieldName f) with
      | true =>
          simp only [hb, if_true] at h
          cases h; simp
      | false =>
          simp only [hb] at h
          cases hd : findDirect m (m.formattedDestFieldName f) fields with
          | some v =>
              simp only [hd] at h
              cases h; simp
          | none =>
              cases hp : probeAnonFields m f fields with
              | error p => simp [hd, hp] at h
              | ok o =>
                  cases o with
                  | some v =>
                      simp only [hd, hp] at h
                      cases h; simp
                  | none =>
                      simp only [hd, hp] at h
                      cases h; simp
  all_goals
    cases hb : m.includes m.IgnoreDestFields (m.formattedDestFieldName f) <;>
      simp_all
theorem invR_stay (flag : Bool) (r : Result) : InvR flag r r none :=
  ⟨⟨[], by simp⟩, ⟨[], by simp⟩, fun _ => rfl, fun p hp => Option.noConfusion hp⟩

theorem invR_stay_pan (flag : Bool) (r : Result) (p : String) : InvR flag r r (some p) :=
  ⟨⟨[], by simp⟩, ⟨[], by simp⟩, fun h => Option.noConfusion h, fun _ _ _ => Or.inl rfl⟩

theorem invR_addError (flag : Bool) (r : Result) (msg : String) :
    InvR flag r (r.addError msg) none :=
  ⟨⟨[], by simp [Result.addError]⟩, ⟨[msg], rfl⟩, fun _ => rfl, fun p hp => Option.noConfusion hp⟩

theorem invR_trans {flag : Bool} {r r1 r' : Result} {pan : Option String}
    (h1 : InvR flag r r1 none) (h2 : InvR flag r1 r' pan) : InvR flag r r' pan := by
  obtain ⟨⟨a1, hm1⟩, ⟨b1, he1⟩, hs1, -⟩ := h1
  obtain ⟨⟨a2, hm2⟩, ⟨b2, he2⟩, hs2, hp2⟩ := h2
  have hsc : r1.scope = r.scope := hs1 rfl
  refine ⟨⟨a1 ++ a2, by rw [hm2, hm1, List.append_assoc]⟩,
          ⟨b1 ++ b2, by rw [he2, he1, List.append_assoc]⟩,
          fun hn => by rw [hs2 hn, hsc],
          fun p hp hf => ?_⟩
  rcases hp2 p hp hf with h | h
  · exact Or.inl (by rw [h, hsc])
  · exact Or.inr h

theorem engineInv (m : Mapper) (n : Nat) :
    (∀ r s d r' d' pan, m.mapValues n r s d = some (r', d', pan) →
        InvR m.PanicOnIncompatibleTypes r r' pan) ∧
    (∀ r s d i r' d' pan, m.mapStructFields n r s d i = some (r', d', pan) →
        InvR m.PanicOnIncompatibleTypes r r' pan) ∧
    (∀ r s d i r' d' pan, m.mapField n r s d i = some (r', d', pan) →
        InvRF m.PanicOnIncompatibleTypes r r' pan) ∧
    (∀ r s d r' d' pan, m.mapSlice n r s d = some (r', d', pan) →
        InvR m.PanicOnIncompatibleTypes r r' pan) ∧
    (∀ r xs t r' vs pan, m.mapSliceElems n r xs t = some (r', vs, pan) →
        InvR m.PanicOnIncompatibleTypes r r' pan) ∧
    (∀ r s d r' pan, m.checkArrayTypesAreCompatible n r s d = some (r', pan) →
        InvR m.PanicOnIncompatibleTypes r r' pan) := by
  induction n with
  | zero =>
      refine ⟨?_, ?_, ?_, ?_, ?_, ?_⟩
      · intro r s d r' d' pan h; simp only [Mapper.mapValues] at h; cases h
      · intro r s d i r' d' pan h; simp only [Mapper.mapStructFields] at h; cases h
      · intro r s d i r' d' pan h; simp only [Mapper.mapField] at h; cases h
      · intro r s d r' d' pan h; simp only [Mapper.mapSlice] at h; cases h
      · intro r xs t r' vs pan h; simp only [Mapper.mapSliceElems] at h; cases h
      · intro r s d r' pan h; simp only [Mapper.checkArrayTypesAreCompatible] at h; cases h
  | succ n ih =>
      obtain ⟨ihMV, ihSF, ihMF, ihSL, ihSE, ihCA⟩ := ih
      refine ⟨?_, ?_, ?_, ?_, ?_, ?_⟩
      · -- mapValues
        intro r s d r' d' pan h
        simp only [Mapper.mapValues] at h
        generalize hsv : derefForStruct (tyOf d) s = sv at h
        cases hc : runCustomMappers m.CustomMappers sv (tyOf sv) d (tyOf d) with
        | some nd => rw [hc] at h; simp only at h; cases h; exact invR_stay _ _
        | none =>
            rw [hc] at h; simp only at h
            by_cases hkp : ((tyOf d).kind == Kind.kptr) = true
            · rw [if_pos hkp] at h
              by_cases hnil : valueIsNil sv = true
              · rw [if_pos hnil] at h; cases h; exact invR_stay _ _
              · rw [if_neg hnil] at h
                cases hrec : m.mapValues n r sv (zeroValue (tyOf d).elemTy) with
                | none => rw [hrec] at h; exact (by simp at h)
                | some t3 =>
                    obtain ⟨r1, v1, pan1⟩ := t3
                    rw [hrec] at h
                    cases pan1 with
                    | some p => simp only at h; cases h; exact ihMV _ _ _ _ _ _ hrec
                    | none => simp only at h; cases h; exact ihMV _ _ _ _ _ _ hrec
            · rw [if_neg hkp] at h
              by_cases htime : ((tyOf d).kind == Kind.kstruct && (tyOf d).pkgPath == "time" &&
                  (tyOf d).name == "Time" && (tyOf sv).kind == Kind.kstruct &&
                  (tyOf sv).pkgPath == "time" && (tyOf sv).name == "Time") = true
              · rw [if_pos htime] at h; cases h; exact invR_stay _ _
              · rw [if_neg htime] at h
                by_cases hks : ((tyOf d).kind == Kind.kstruct) = true
                · rw [if_pos hks] at h; exact ihSF _ _ _ _ _ _ _ h
                · rw [if_neg hks] at h
                  by_cases hii : ((isIntType sv).fst && (isIntType d).fst) = true
                  · rw [if_pos hii] at h; cases h; exact invR_stay _ _
                  · rw [if_neg hii] at h
                    by_cases huu : ((isUintType sv).fst && (isUintType d).fst) = true
                    · rw [if_pos huu] at h; cases h; exact invR_stay _ _
                    · rw [if_neg huu] at h
                      by_cases hui : ((isIntType d).fst && (isUintType sv).fst) = true
                      · rw [if_pos hui] at h; cases h; exact invR_stay _ _
                      · rw [if_neg hui] at h
                        by_cases hff : ((isFloatType sv).fst && (isFloatType d).fst) = true
                        · rw [if_pos hff] at h; cases h; exact invR_stay _ _
                        · rw [if_neg hff] at h
                          by_cases heq : Ty.beq (tyOf d) (tyOf sv) = true
                          · rw [if_pos heq] at h; cases h; exact invR_stay _ _
                          · rw [if_neg heq] at h
                            by_cases hsl : ((tyOf d).kind == Kind.kslice) = true
                            · rw [if_pos hsl] at h; exact ihSL _ _ _ _ _ _ h
                            · rw [if_neg hsl] at h
                              by_cases hflag : m.PanicOnIncompatibleTypes = true
                              · rw [if_pos hflag] at h; cases h; exact invR_stay_pan _ _ _
                              · rw [if_neg hflag] at h; cases h; exact invR_addError _ _ _
      · -- mapStructFields
        intro r s d i r' d' pan h
        simp only [Mapper.mapStructFields] at h
        by_cases hlt : i < numFieldsV d
        · rw [if_pos hlt] at h
          cases hmf : m.mapField n
              { r with scope := r.scope ++ [(tfieldAt (tyOf d) i).fname] } s d i with
          | none => rw [hmf] at h; exact (by simp at h)
          | some t3 =>
              obtain ⟨r2, d2, pan2⟩ := t3
              rw [hmf] at h
              have hin := ihMF _ _ _ _ _ _ _ hmf
              obtain ⟨⟨a2, hm2⟩, ⟨b2, he2⟩, hsc2, hpf2⟩ := hin
              cases pan2 with
              | some p =>
                  simp only at h; cases h
                  refine ⟨⟨a2, hm2⟩, ⟨b2, he2⟩, fun hn => Option.noConfusion hn,
                          fun q hq hf => ?_⟩
                  exact absurd (hpf2 p rfl) (by simp [hf])
              | none =>
                  simp only at h
                  have hsc2' := hsc2 rfl
                  by_cases hz : (r2.scope.length == 0) = true
                  · rw [if_pos hz] at h; cases h
                    exfalso
                    simp only [beq_iff_eq] at hz
                    rcases hsc2' with he | hbig
                    · rw [he] at hz; simp at hz
                    · omega
                  · rw [if_neg hz] at h
                    by_cases hbig : r2.scope.length > 200
                    · rw [if_pos hbig] at h; cases h
                      refine ⟨⟨a2, hm2⟩, ⟨b2, he2⟩, fun hn => Option.noConfusion hn,
                              fun q hq hf => Or.inr hbig⟩
                    · rw [if_neg hbig] at h
                      have hclean : r2.scope = r.scope ++ [(tfieldAt (tyOf d) i).fname] := by
                        rcases hsc2' with he | hb
                        · exact he
                        · omega
                      have hrec := ihSF _ _ _ _ _ _ _ h
                      obtain ⟨⟨a3, hm3⟩, ⟨b3, he3⟩, hsc3, hpf3⟩ := hrec
                      have hdrop : r2.scope.dropLast = r.scope := by
                        rw [hclean]; exact List.dropLast_concat
                      refine ⟨⟨a2 ++ a3, by simp [hm3, hm2, List.append_assoc]⟩,
                              ⟨b2 ++ b3, by simp [he3, he2, List.append_assoc]⟩,
                              fun hn => ?_, fun q hq hf => ?_⟩
                      · rw [hsc3 hn]; exact hdrop
                      · rcases hpf3 q hq hf with hl | hr
                        · exact Or.inl (by rw [hl]; exact hdrop)
                        · exact Or.inr hr
        · rw [if_neg hlt] at h; cases h; exact invR_stay _ _
      · -- mapField
        intro r s d i r' d' pan h
        simp only [Mapper.mapField] at h
        cases hfs : m.findSourceField r s (tfieldAt (tyOf d) i) with
        | error p =>
            rw [hfs] at h; simp only at h
            by_cases hflag : m.PanicOnIncompatibleTypes = true
            · rw [if_pos hflag] at h; cases h
              exact ⟨⟨[], by simp⟩, ⟨[], by simp⟩, fun hn => Option.noConfusion hn,
                     fun q hq => hflag⟩
            · rw [if_neg hflag] at h; cases h
              exact ⟨⟨[], by simp [Result.addError]⟩, ⟨_, rfl⟩, fun _ => Or.inl rfl,
                     fun q hq => Option.noConfusion hq⟩
        | ok pr =>
            obtain ⟨r1, ov⟩ := pr
            rw [hfs] at h
            have hfi := findSourceField_inv _ _ _ _ _ _ hfs
            obtain ⟨hfsc, hferr, hfmiss⟩ := hfi
            have hfm : ∃ a, r1.MissingSourceFields = r.MissingSourceFields ++ a := by
              rcases hfmiss with hmm | hmm
              · exact ⟨[], by simp [hmm]⟩
              · exact ⟨_, hmm⟩
            cases ov with
            | none =>
                simp only at h; cases h
                exact ⟨hfm, ⟨[], by simp [hferr]⟩, fun _ => Or.inl hfsc,
                       fun q hq => Option.noConfusion hq⟩
            | some sf =>
                simp only at h
                cases hmv : m.mapValues n r1 sf (vfieldValAt d i) with
                | none => rw [hmv] at h; exact (by simp at h)
                | some t3 =>
                    obtain ⟨r2, fv, pan0⟩ := t3
                    rw [hmv] at h
                    have hin := ihMV _ _ _ _ _ _ hmv
                    obtain ⟨⟨a2, hm2⟩, ⟨b2, he2⟩, hsc2, hpf2⟩ := hin
                    have hmApp : ∃ a, r2.MissingSourceFields = r.MissingSourceFields ++ a := by
                      obtain ⟨af, haf⟩ := hfm
                      exact ⟨af ++ a2, by rw [hm2, haf, List.append_assoc]⟩
                    have heApp : ∃ b, r2.Errors = r.Errors ++ b :=
                      ⟨b2, by rw [he2, hferr]⟩
                    cases pan0 with
                    | none =>
                        simp only at h; cases h
                        exact ⟨hmApp, heApp,
                               fun _ => Or.inl (by rw [hsc2 rfl, hfsc]),
                               fun q hq => Option.noConfusion hq⟩
                    | some p =>
                        simp only at h
                        by_cases hflag : m.PanicOnIncompatibleTypes = true
                        · rw [if_pos hflag] at h; cases h
                          exact ⟨hmApp, heApp, fun hn => Option.noConfusion hn,
                                 fun q hq => hflag⟩
                        · rw [if_neg hflag] at h; cases h
                          refine ⟨hmApp, ?_, fun hn => ?_, fun q hq => Option.noConfusion hq⟩
                          · obtain ⟨be, hbe⟩ := heApp
                            exact ⟨be ++ [_], by
                              simp only [Result.addError]
                              rw [hbe, List.append_assoc]⟩
                          · have := hpf2 p rfl (by simpa using hflag)
                            simp only [Result.addError]
                            rcases this with hl | hr
                            · exact Or.inl (by rw [hl, hfsc])
                            · exact Or.inr hr
      · -- mapSlice
        intro r s d r' d' pan h
        simp only [Mapper.mapSlice] at h
        cases s with
        | vslice es elems =>
            simp only at h
            cases hel : m.mapSliceElems n r elems (tyOf d).elemTy with
            | none => rw [hel] at h; exact (by simp at h)
            | some t3 =>
                obtain ⟨r1, mapped, pan1⟩ := t3
                rw [hel] at h
                cases pan1 with
                | some p => simp only at h; cases h; exact ihSE _ _ _ _ _ _ hel
                | none =>
                    simp only at h
                    by_cases hlen : (vlistLength elems == 0) = true
                    · rw [if_pos hlen] at h
                      cases hck : m.checkArrayTypesAreCompatible n r1 (Value.vslice es elems) d with
                      | none => rw [hck] at h; exact (by simp at h)
                      | some t4 =>
                          obtain ⟨r2, pan2⟩ := t4
                          rw [hck] at h
                          cases pan2 with
                          | some p =>
                              simp only at h; cases h
                              exact invR_trans (ihSE _ _ _ _ _ _ hel) (ihCA _ _ _ _ _ hck)
                          | none =>
                              simp only at h; cases h
                              exact invR_trans (ihSE _ _ _ _ _ _ hel) (ihCA _ _ _ _ _ hck)
                    · rw [if_neg hlen] at h; cases h
                      exact ihSE _ _ _ _ _ _ hel
        | vint a b => simp only at h; cases h; exact invR_stay_pan _ _ _
        | vuint a b => simp only at h; cases h; exact invR_stay_pan _ _ _
        | vfloat a b => simp only at h; cases h; exact invR_stay_pan _ _ _
        | vstr a => simp only at h; cases h; exact invR_stay_pan _ _ _
        | vprim a b => simp only at h; cases h; exact invR_stay_pan _ _ _
        | vstruct a b c => simp only at h; cases h; exact invR_stay_pan _ _ _
        | vptr a b => simp only at h; cases h; exact invR_stay_pan _ _ _
      · -- mapSliceElems
        intro r xs t r' vs pan h
        cases xs with
        | nil => simp only [Mapper.mapSliceElems] at h; cases h; exact invR_stay _ _
        | cons x rest =>
            simp only [Mapper.mapSliceElems] at h
            cases hmv : m.mapValues n r x (zeroValue t) with
            | none => rw [hmv] at h; exact (by simp at h)
            | some t3 =>
                obtain ⟨r1, v1, pan1⟩ := t3
                rw [hmv] at h
                cases pan1 with
                | some p => simp only at h; cases h; exact ihMV _ _ _ _ _ _ hmv
                | none =>
                    simp only at h
                    cases hrest : m.mapSliceElems n r1 rest t with
                    | none => rw [hrest] at h; exact (by simp at h)
                    | some t4 =>
                        obtain ⟨r2, vs2, pan2⟩ := t4
                        rw [hrest] at h
                        simp only at h; cases h
                        exact invR_trans (ihMV _ _ _ _ _ _ hmv) (ihSE _ _ _ _ _ _ hrest)
      · -- checkArrayTypesAreCompatible
        intro r s d r' pan h
        simp only [Mapper.checkArrayTypesAreCompatible] at h
        cases s with
        | vslice es elems =>
            simp only at h
            cases hrec : m.mapValues n r (Value.vslice es (.cons (zeroValue es) .nil))
                (Value.vptr (tyOf d) none) with
            | none => rw [hrec] at h; exact (by simp at h)
            | some t3 =>
                obtain ⟨r1, v1, pan1⟩ := t3
                simp only [hrec] at h
                cases h
                have := ihMV _ _ _ _ _ _ hrec
                obtain ⟨ha, hb, hc, hd2⟩ := this
                exact ⟨ha, hb, hc, hd2⟩
        | vint a b => simp only at h; cases h; exact invR_stay_pan _ _ _
        | vuint a b => simp only at h; cases h; exact invR_stay_pan _ _ _
        | vfloat a b => simp only at h; cases h; exact invR_stay_pan _ _ _
        | vstr a => simp only at h; cases h; exact invR_stay_pan _ _ _
        | vprim a b => simp only at h; cases h; exact invR_stay_pan _ _ _
        | vstruct a b c => simp only at h; cases h; exact invR_stay_pan _ _ _
        | vptr a b => simp only at h; cases h; exact invR_stay_pan _ _ _

/-- Restatement of `strContains_mid` with the decomposition as an equation,
for message-content proofs. -/
theorem strContains_of_eq (x a n b : String) (hx : x = a ++ n ++ b) :
    strContains x n = true := hx ▸ strContains_mid a n b

/-! ## C1 — timing of the missing-field abort -/

/-- C1 counterexample: with `PanicOnMissingField` on, the first missing
destination field (`B`) does not abort the call at its occurrence: the
traversal still records the later missing field `C` and still maps `A`
(the destination's `A` holds 1 afterwards), and the abort message `Map`
raises lists both missing fields — the abort happens after traversal, not
at first occurrence as the claim states. -/
theorem claim_C1_counterexample :
    ({ PanicOnMissingField := true } : Mapper).mapValues 20 {} c1src (zeroValue c1destTy) =
      some ({ MissingSourceFields := ["B", "C"], Errors := [], scope := [] },
        .vstruct "" "" (.cons (.mk "B" false [] (.vstr ""))
          (.cons (.mk "C" false [] (.vstr ""))
            (.cons (.mk "A" false [] (.vint "int" 1)) .nil))), none) ∧
    ({ PanicOnMissingField := true } : Mapper).Map 20 c1src
        (.vptr c1destTy (some (zeroValue c1destTy))) =
      some (.error "Missing fields from source struct: B, C") :=
  ⟨rfl, rfl⟩

/-- C1 (amended): with `failOnMissingSourceField` enabled, a missing
source field does not abort the `Map` call at its occurrence.  The
traversal runs to completion, collecting every missing field; afterwards,
if the missing list is non-empty, `Map` aborts (panics) with one message
listing all missing fields, and no `Result` is returned. -/
theorem claim_C1_amended (m : Mapper) (fuel : Nat) (s : Value) (t : Ty) (dv : Value)
    (r : Result) (d' : Value)
    (hpm : m.PanicOnMissingField = true)
    (h : m.mapValues fuel {} s dv = some (r, d', none))
    (hml : r.MissingSourceFields ≠ []) :
    m.Map fuel s (.vptr t (some dv)) = some (.error (missingMsg r.MissingSourceFields)) := by
  simp only [Mapper.Map]
  rw [h]
  simp only [List.length_pos.mpr hml, if_true, hpm]

/-- C1 witness: the amended theorem at the concrete two-missing-fields
scenario. -/
theorem claim_C1_witness :
    ({ PanicOnMissingField := true } : Mapper).Map 20 c1src
        (.vptr c1destTy (some (zeroValue c1destTy))) =
      some (.error (missingMsg ["B", "C"])) :=
  claim_C1_amended ({ PanicOnMissingField := true } : Mapper) 20 c1src c1destTy
    (zeroValue c1destTy) { MissingSourceFields := ["B", "C"], Errors := [], scope := [] }
    (.vstruct "" "" (.cons (.mk "B" false [] (.vstr ""))
      (.cons (.mk "C" false [] (.vstr ""))
        (.cons (.mk "A" false [] (.vint "int" 1)) .nil))))
    rfl rfl (by simp)

/-! ## C2 — contents of the incompatible-type failure message -/

/-- C2 counterexample: with both switches off, mapping `{Foo string}` into
`{Foo int}` records the raw incompatible-pair message, and that message
does not contain the destination field name `Foo` — the claimed field-name
enrichment does not happen in the recorded (switch off) case. -/
theorem claim_C2_counterexample :
    ({} : Mapper).Map 20 c2src (.vptr c2destTy (some (zeroValue c2destTy))) =
      some (.ok
        ({ MissingSourceFields := [], Errors := [incompatMsg (.prim "string") (.prim "int")], scope := [] },
          .vptr c2destTy (some (.vstruct "" ""
            (.cons (.mk "Foo" false [] (.vint "int" 0)) .nil))))) ∧
    strContains (incompatMsg (.prim "string") (.prim "int")) "Foo" = false :=
  ⟨rfl, rfl⟩

/-- C2 (amended): the incompatible-pair message of `mapValues` contains
the source and destination type names but no field name; the destination
field name (together with the enclosing destination and source type names)
is added only by the recover at the `mapField` boundary, which wraps a
panic crossing it and re-raises the wrapped message when
`failOnIncompatibleTypes` is on, or records it when off. -/
theorem claim_C2_amended :
    (∀ sT dT : Ty, strContains (incompatMsg sT dT) (tyString sT) = true ∧
        strContains (incompatMsg sT dT) (tyString dT) = true) ∧
    (∀ (nm : String) (dT sT : Ty) (p : String),
        strContains (fieldErrMsg nm dT sT p) nm = true ∧
        strContains (fieldErrMsg nm dT sT p) (tyString dT) = true ∧
        strContains (fieldErrMsg nm dT sT p) (tyString sT) = true) ∧
    (∀ (m : Mapper) (fuel : Nat) (r : Result) (s d : Value) (i : Nat)
        (r1 : Result) (sf : Value) (r2 : Result) (fv : Value) (p : String),
        m.findSourceField r s (tfieldAt (tyOf d) i) = .ok (r1, some sf) →
        m.mapValues fuel r1 sf (vfieldValAt d i) = some (r2, fv, some p) →
        m.mapField (fuel + 1) r s d i =
          some (if m.PanicOnIncompatibleTypes then
              (r2, setVFieldAt d i fv,
                some (fieldErrMsg (tfieldAt (tyOf d) i).fname (tyOf d) (tyOf s) p))
            else
              (r2.addError (fieldErrMsg (tfieldAt (tyOf d) i).fname (tyOf d) (tyOf s) p),
                setVFieldAt d i fv, none))) := by
  refine ⟨fun sT dT => ⟨?_, ?_⟩, fun nm dT sT p => ⟨?_, ?_, ?_⟩, ?_⟩
  · exact strContains_of_eq _ "Currently not supported (source " _
      (" -> dest " ++ tyString dT ++
        "), write a custom mapper for this. see CustomFieldMapper.")
      (by simp only [incompatMsg, String.append_assoc])
  · exact strContains_of_eq _
      ("Currently not supported (source " ++ tyString sT ++ " -> dest ") _
      "), write a custom mapper for this. see CustomFieldMapper."
      (by simp only [incompatMsg, String.append_assoc])
  · exact strContains_of_eq _ "Error mapping field: " _
      (". DestType: " ++ tyString dT ++ ". SourceType: " ++ tyString sT ++
        ". Error: " ++ p)
      (by simp only [fieldErrMsg, String.append_assoc])
  · exact strContains_of_eq _ ("Error mapping field: " ++ nm ++ ". DestType: ") _
      (". SourceType: " ++ tyString sT ++ ". Error: " ++ p)
      (by simp only [fieldErrMsg, String.append_assoc])
  · exact strContains_of_eq _
      ("Error mapping field: " ++ nm ++ ". DestType: " ++ tyString dT ++ ". SourceType: ") _
      (". Error: " ++ p)
      (by simp only [fieldErrMsg, String.append_assoc])
  · intro m fuel r s d i r1 sf r2 fv p hfs hmv
    simp only [Mapper.mapField]
    rw [hfs]
    simp only
    rw [hmv]
    by_cases hf : m.PanicOnIncompatibleTypes = true
    · simp [hf]
    · simp [hf]

/-- C2 witness: the field-boundary conjunct of the amended theorem at a
concrete panicking field mapping (`{Foo string = "x"}` into `{Foo int}`
with the abort switch on). -/
theorem claim_C2_witness :
    ({ PanicOnIncompatibleTypes := true } : Mapper).mapField 2 {} c2src
        (zeroValue c2destTy) 0 =
      some ({}, zeroValue c2destTy,
        some (fieldErrMsg "Foo" (.tstruct "" "" (.cons (.mk "Foo" false [] (.prim "int")) .nil))
          (.tstruct "" "" (.cons (.mk "Foo" false [] (.prim "string")) .nil))
          (incompatMsg (.prim "string") (.prim "int")))) := by
  have := claim_C2_amended.2.2 ({ PanicOnIncompatibleTypes := true } : Mapper) 1 {}
    c2src (zeroValue c2destTy) 0 {} (.vstr "x") {} (.vint "int" 0)
    (incompatMsg (.prim "string") (.prim "int")) rfl rfl
  simpa using this

/-! ## C3 — ordering of non-fatal failures in the error list -/

/-- C3 counterexample: with both switches off, the missing field `B`
(encountered before the incompatible field `Foo`) is not the first entry
of `Errors`: the incompatible-type message comes first and the combined
missing-fields message is appended last, after traversal. -/
theorem claim_C3_counterexample :
    ({} : Mapper).Map 20 c2src (.vptr c3destTy (some (zeroValue c3destTy))) =
      some (.ok
        ({ MissingSourceFields := ["B"],
           Errors := [incompatMsg (.prim "string") (.prim "int"), missingMsg ["B"]],
           scope := [] },
          .vptr c3destTy (some (.vstruct "" ""
            (.cons (.mk "B" false [] (.vstr ""))
              (.cons (.mk "Foo" false [] (.vint "int" 0)) .nil)))))) :=
  rfl

/-- C3 (amended): during traversal the error and missing-field lists only
grow (so recorded incompatible-type failures appear in encounter order),
while missing-source-field failures are collected separately in
`MissingSourceFields`; after traversal `Map` appends them to the error
list as one combined message — after every recorded incompatible-type
error, not at their encounter position. -/
theorem claim_C3_amended :
    (∀ (m : Mapper) (n : Nat) (r : Result) (s d : Value) (r' : Result) (d' : Value)
        (pan : Option String), m.mapValues n r s d = some (r', d', pan) →
        (∃ a, r'.MissingSourceFields = r.MissingSourceFields ++ a) ∧
        (∃ b, r'.Errors = r.Errors ++ b)) ∧
    (∀ (m : Mapper) (fuel : Nat) (s : Value) (t : Ty) (dv : Value) (r : Result) (d' : Value),
        m.mapValues fuel {} s dv = some (r, d', none) →
        m.PanicOnMissingField = false →
        r.MissingSourceFields ≠ [] →
        m.Map fuel s (.vptr t (some dv)) =
          some (.ok
            ({ r with Errors := r.Errors ++ [missingMsg r.MissingSourceFields] },
              .vptr t (some d')))) := by
  constructor
  · intro m n r s d r' d' pan h
    have := ((engineInv m n).1 _ _ _ _ _ _ h)
    exact ⟨this.1, this.2.1⟩
  · intro m fuel s t dv r d' h hpm hml
    simp only [Mapper.Map]
    rw [h]
    simp only [List.length_pos.mpr hml, if_true, hpm, Result.addError]
    simp

/-- C3 witness: the amended theorem's `Map` part at the concrete scenario
(missing `B` first, incompatible `Foo` second), plus the growth part at
the same traversal. -/
theorem claim_C3_witness :
    ({} : Mapper).Map 20 c2src (.vptr c3destTy (some (zeroValue c3destTy))) =
      some (.ok
        ({ MissingSourceFields := ["B"],
           Errors := [incompatMsg (.prim "string") (.prim "int")] ++ [missingMsg ["B"]],
           scope := [] },
          .vptr c3destTy (some (.vstruct "" ""
            (.cons (.mk "B" false [] (.vstr ""))
              (.cons (.mk "Foo" false [] (.vint "int" 0)) .nil)))))) ∧
    ((∃ a, (["B"] : List String) = [] ++ a) ∧
      (∃ b, [incompatMsg (.prim "string") (.prim "int")] = [] ++ b)) :=
  ⟨claim_C3_amended.2 ({} : Mapper) 20 c2src c3destTy (zeroValue c3destTy)
      { MissingSourceFields := ["B"],
        Errors := [incompatMsg (.prim "string") (.prim "int")], scope := [] }
      (.vstruct "" "" (.cons (.mk "B" false [] (.vstr ""))
        (.cons (.mk "Foo" false [] (.vint "int" 0)) .nil)))
      rfl rfl (by simp),
    claim_C3_amended.1 ({} : Mapper) 20 {} c2src (zeroValue c3destTy)
      { MissingSourceFields := ["B"],
        Errors := [incompatMsg (.prim "string") (.prim "int")], scope := [] }
      (.vstruct "" "" (.cons (.mk "B" false [] (.vstr ""))
        (.cons (.mk "Foo" false [] (.vint "int" 0)) .nil))) none rfl⟩

/-! ## C4 — placement of the identical-type fast path -/

/-- C4 counterexample: two values of the same record type `main.AB` are
not whole-copied: struct-field iteration takes precedence over the
identical-type fast path, so with the rename table `A ↦ B` both
destination fields are resolved from source field `A`, and the mapped
destination `{A = 1, B = 1}` differs from the source `{A = 1, B = 2}`
(with no errors recorded). -/
theorem claim_C4_counterexample :
    ({ FieldNameMaps := [("A", "B")] } : Mapper).mapValues 20 {} c4src (zeroValue c4ty) =
      some ({}, .vstruct "main" "AB" (.cons (.mk "A" false [] (.vint "int" 1))
        (.cons (.mk "B" false [] (.vint "int" 1)) .nil)), none) ∧
    Value.vstruct "main" "AB" (.cons (.mk "A" false [] (.vint "int" 1))
        (.cons (.mk "B" false [] (.vint "int" 1)) .nil)) ≠ c4src :=
  ⟨rfl, by simp [c4src]⟩

/-- C4 (amended): the identical-type fast path sits after the pointer,
`time.Time`, struct-iteration and scalar-coercion rules and before
sequence handling: whenever source and destination share the exact same
type, the destination is of primitive or slice kind, and no scalar
coercion applies to the source, the destination becomes a whole-value copy
of the source with no errors (for slices this takes precedence over
element-wise sequence handling); identically-typed record values are
instead mapped field by field, which need not coincide with a whole-value
copy. -/
theorem claim_C4_amended (m : Mapper) (hcm : m.CustomMappers = []) (fuel : Nat) (r : Result)
    (s d : Value)
    (hk : (tyOf d).kind = Kind.kprim ∨ (tyOf d).kind = Kind.kslice)
    (hsi : (isIntType s).fst = false) (hsu : (isUintType s).fst = false)
    (hsf : (isFloatType s).fst = false)
    (heq : Ty.beq (tyOf d) (tyOf s) = true) :
    m.mapValues (fuel + 1) r s d = some (r, s, none) := by
  simp only [Mapper.mapValues]
  have hds : derefForStruct (tyOf d) s = s := by
    unfold derefForStruct
    rcases hk with h | h <;> simp [h]
  rw [hds]
  rcases hk with h | h <;>
    simp [h, hcm, runCustomMappers, hsi, hsu, hsf, heq]

/-- C4 witness: the amended theorem at a pair of identically-typed string
slices — the whole slice is copied by value (fast path), not mapped
element-wise. -/
theorem claim_C4_witness :
    ({} : Mapper).mapValues 1 {} (.vslice (.prim "string") (.cons (.vstr "a") .nil))
        (.vslice (.prim "string") .nil) =
      some ({}, .vslice (.prim "string") (.cons (.vstr "a") .nil), none) :=
  claim_C4_amended ({} : Mapper) rfl 0 {} _ _ (Or.inr rfl) rfl rfl rfl (by decide)

/-! ## C6 — nil pointer source into a record destination -/

/-- A zero value of a non-pointer type is never a pointer value. -/
theorem zeroValue_ne_vptr (te : Ty) (hk : te.kind ≠ Kind.kptr) (t : Ty) (o : Option Value) :
    zeroValue te ≠ Value.vptr t o := by
  cases te with
  | prim n =>
      simp only [zeroValue]
      repeat' split
      all_goals simp
  | tstruct p nm fs => simp [zeroValue]
  | tptr t' => exact absurd rfl hk
  | tslice t' => simp [zeroValue]

/-- `derefForStruct` leaves non-pointer sources untouched. -/
theorem derefForStruct_of_ne_vptr (dt : Ty) (v : Value)
    (hnp : ∀ t o, v ≠ Value.vptr t o) : derefForStruct dt v = v := by
  unfold derefForStruct
  by_cases hk : (dt.kind == Kind.kstruct) = true
  · rw [if_pos hk]
    cases v with
    | vptr t o => exact absurd rfl (hnp t o)
    | vint a b => rfl
    | vuint a b => rfl
    | vfloat a b => rfl
    | vstr a => rfl
    | vprim a b => rfl
    | vstruct a b c => rfl
    | vslice a b => rfl
  · rw [if_neg hk]

/-- C6: a nil pointer source mapped into a record (struct-kind)
destination is replaced by a fresh zero-valued instance of the pointed-to
type and traversal proceeds exactly as if that zero instance had been the
source — custom mappers are still consulted and nested zero defaults are
produced field-wise, with no error when every field resolves (the
restriction to a non-pointer pointee matches the scenario: the pointee is
the record's counterpart). -/
theorem claim_C6 (m : Mapper) (fuel : Nat) (r : Result) (te : Ty) (d : Value)
    (hd : (tyOf d).kind = Kind.kstruct) (hte : te.kind ≠ Kind.kptr) :
    m.mapValues (fuel + 1) r (.vptr te none) d =
      m.mapValues (fuel + 1) r (zeroValue te) d := by
  simp only [Mapper.mapValues]
  rw [show derefForStruct (tyOf d) (Value.vptr te none) = zeroValue te from by
        simp [derefForStruct, hd],
      derefForStruct_of_ne_vptr (tyOf d) (zeroValue te) (zeroValue_ne_vptr te hte)]

/-- C6 witness: mapping a nil `*main.AB` into a zero `main.AB` equals
mapping a zero `main.AB` into it, and the result is the zero-filled
destination with no errors. -/
theorem claim_C6_witness :
    ({} : Mapper).mapValues 5 {} (.vptr c4ty none) (zeroValue c4ty) =
      ({} : Mapper).mapValues 5 {} (zeroValue c4ty) (zeroValue c4ty) ∧
    ({} : Mapper).mapValues 5 {} (.vptr c4ty none) (zeroValue c4ty) =
      some ({}, zeroValue c4ty, none) :=
  ⟨claim_C6 ({} : Mapper) 4 {} c4ty (zeroValue c4ty) rfl (by decide), rfl⟩

/-! ## C7 — integer coercions -/

/-- Two's-complement wraparound is the identity on in-range values. -/
theorem bmod_eq_self_of_range (v : Int) (w : Nat) (hw : 1 ≤ w)
    (h1 : -(2 ^ (w - 1)) ≤ v) (h2 : v < 2 ^ (w - 1)) :
    Int.bmod v (2 ^ w) = v := by
  have hbd : Int.bmod v (2 ^ w) =
      if v % ((2 ^ w : Nat) : Int) < (((2 ^ w : Nat) : Int) + 1) / 2
      then v % ((2 ^ w : Nat) : Int)
      else v % ((2 ^ w : Nat) : Int) - ((2 ^ w : Nat) : Int) := rfl
  have hp : (0 : Int) < 2 ^ (w - 1) := by positivity
  have hsplit : ((2 ^ w : Nat) : Int) = 2 * 2 ^ (w - 1) := by
    push_cast
    rw [← pow_succ']
    congr 1
    omega
  rw [hbd, hsplit]
  have hmod : v % (2 * 2 ^ (w - 1)) = if 0 ≤ v then v else v + 2 * 2 ^ (w - 1) := by
    by_cases h0 : 0 ≤ v
    · rw [if_pos h0]
      exact Int.emod_eq_of_lt h0 (by omega)
    · rw [if_neg h0]
      have e1 : (v + 2 * 2 ^ (w - 1)) % (2 * 2 ^ (w - 1)) = v % (2 * 2 ^ (w - 1)) := by
        have e0 := @Int.add_mul_emod_self_left v (2 * 2 ^ (w - 1)) 1
        rw [mul_one] at e0
        exact e0
      have e2 : (v + 2 * 2 ^ (w - 1)) % (2 * 2 ^ (w - 1)) = v + 2 * 2 ^ (w - 1) :=
        Int.emod_eq_of_lt (by omega) (by omega)
      omega
  rw [hmod]
  have hdiv : ((2 : Int) * 2 ^ (w - 1) + 1) / 2 = 2 ^ (w - 1) := by omega
  rw [hdiv]
  by_cases h0 : 0 ≤ v
  · rw [if_pos h0, if_pos (by omega)]
  · rw [if_neg h0, if_neg (by omega)]
    omega

/-- C7: between predeclared integer types the mapper copies by numeric
value with two's-complement truncation to the destination width and no
overflow error: int-to-int stores `bmod v 2^w` (the identity when `v` fits
the destination range), uint-to-uint stores `u % 2^w`, and an unsigned
source into a signed destination first reinterprets the `uint64` as a
signed `int64` (`int64OfUint64`) and then truncates; a uint-to-uint pair
takes the unsigned rule, showing the coercion checks run in the order
int-int, uint-uint, uint-int. -/
theorem claim_C7 (m : Mapper) (hcm : m.CustomMappers = []) :
    (∀ (fuel : Nat) (r : Result) (ns nd : String) (v w : Int),
        ns ∈ intNames → nd ∈ intNames →
        m.mapValues (fuel + 1) r (.vint ns v) (.vint nd w) =
          some (r, .vint nd (Int.bmod v (2 ^ intWidth nd)), none)) ∧
    (∀ (v : Int) (w : Nat), 1 ≤ w → -(2 ^ (w - 1)) ≤ v → v < 2 ^ (w - 1) →
        Int.bmod v (2 ^ w) = v) ∧
    (∀ (fuel : Nat) (r : Result) (ns nd : String) (u w : Nat),
        ns ∈ uintNames → nd ∈ uintNames →
        m.mapValues (fuel + 1) r (.vuint ns u) (.vuint nd w) =
          some (r, .vuint nd (u % 2 ^ intWidth nd), none)) ∧
    (∀ (fuel : Nat) (r : Result) (ns nd : String) (u : Nat) (w : Int),
        ns ∈ uintNames → nd ∈ intNames →
        m.mapValues (fuel + 1) r (.vuint ns u) (.vint nd w) =
          some (r, .vint nd (Int.bmod (int64OfUint64 u) (2 ^ intWidth nd)), none)) := by
  refine ⟨?_, ?_, ?_, ?_⟩
  · intro fuel r ns nd v w hs hd
    simp only [Mapper.mapValues]
    simp [derefForStruct, tyOf, Ty.kind, hcm, runCustomMappers, isIntType, hs, hd, setIntVal]
  · exact bmod_eq_self_of_range
  · intro fuel r ns nd u w hs hd
    simp only [Mapper.mapValues]
    simp [derefForStruct, tyOf, Ty.kind, hcm, runCustomMappers, isIntType, isUintType,
      hs, hd, setUintVal]
  · intro fuel r ns nd u w hs hd
    simp only [Mapper.mapValues]
    simp [derefForStruct, tyOf, Ty.kind, hcm, runCustomMappers, isIntType, isUintType,
      hs, hd, setIntVal]

/-- C7 witness: int16 -30000 narrows to int8 -48 (two's-complement),
uint16 1000 narrows to uint8 232, uint 9 reinterprets into int32 9, and
the in-range value 5 is preserved by the int8 wraparound. -/
theorem claim_C7_witness :
    ({} : Mapper).mapValues 1 {} (.vint "int16" (-30000)) (.vint "int8" 0) =
      some ({}, .vint "int8" (-48), none) ∧
    ({} : Mapper).mapValues 1 {} (.vuint "uint16" 1000) (.vuint "uint8" 0) =
      some ({}, .vuint "uint8" 232, none) ∧
    ({} : Mapper).mapValues 1 {} (.vuint "uint" 9) (.vint "int32" 0) =
      some ({}, .vint "int32" 9, none) ∧
    Int.bmod 5 (2 ^ 8) = 5 := by
  refine ⟨?_, ?_, ?_, ?_⟩
  · have h := (claim_C7 ({} : Mapper) rfl).1 0 {} "int16" "int8" (-30000) 0 (by decide) (by decide)
    rw [show Int.bmod (-30000 : Int) (2 ^ intWidth "int8") = (-48 : Int) from by decide] at h
    exact h
  · have h := (claim_C7 ({} : Mapper) rfl).2.2.1 0 {} "uint16" "uint8" 1000 0 (by decide) (by decide)
    rw [show (1000 : Nat) % 2 ^ intWidth "uint8" = 232 from by decide] at h
    exact h
  · have h := (claim_C7 ({} : Mapper) rfl).2.2.2 0 {} "uint" "int32" 9 0 (by decide) (by decide)
    rw [show Int.bmod (int64OfUint64 9) (2 ^ intWidth "int32") = (9 : Int) from by decide] at h
    exact h
  · exact (claim_C7 ({} : Mapper) rfl).2.1 5 8 (by norm_num) (by norm_num) (by norm_num)

/-! ## C8 — canonical destination field names -/

/-- The rename loop is a reverse (value-to-key) lookup with both sides
normalized. -/
theorem renameLookup_eq_find (m : Mapper) (nm : String) (l : List (String × String)) :
    renameLookup m nm l =
      match l.find? (fun kv => m.fuzzy kv.2 == nm) with
      | some kv => m.fuzzy kv.1
      | none => nm := by
  induction l with
  | nil => rfl
  | cons kv rest ih =>
      obtain ⟨k, v⟩ := kv
      by_cases hc : (m.fuzzy v == nm) = true
      · simp [renameLookup, List.find?, hc]
      · simp only [renameLookup, List.find?, hc]
        simpa [hc] using ih

/-- C8: the destination field's canonical matching name is the tag-derived
name (when configured and present) else the declared name, normalized by
the fuzzy/ignore-case policy, with the normalized key side of a rename
entry substituted when the normalized name equals its normalized value
side; and the rename table is never applied to source field names
(`formattedSourceFieldName` is independent of it). -/
theorem claim_C8 :
    (∀ (m : Mapper) (f : TField), m.formattedDestFieldName f = specDestFieldName m f) ∧
    (∀ (m : Mapper) (f : TField) (maps : List (String × String)),
        Mapper.formattedSourceFieldName { m with FieldNameMaps := maps } f =
          m.formattedSourceFieldName f) := by
  constructor
  · intro m f
    cases f with
    | mk name anon tags ty =>
        simp only [Mapper.formattedDestFieldName, specDestFieldName]
        exact renameLookup_eq_find m _ m.FieldNameMaps
  · intro m f maps
    rfl

/-! ## C9 — defined numeric types are not coerced -/

/-- C9: scalar numeric coercion keys on the type name, so a defined type
whose underlying kind is an integer (its name is none of the predeclared
int names) is not coerced: mapped to any different primitive-kind type it
raises or records the incompatible-pair failure per
`failOnIncompatibleTypes`, while only the exact-same-type path copies it. -/
theorem claim_C9 (m : Mapper) (hcm : m.CustomMappers = []) :
    (∀ (fuel : Nat) (r : Result) (ns : String) (v : Int) (d : Value),
        ns ∉ intNames →
        (tyOf d).kind = Kind.kprim →
        Ty.beq (tyOf d) (.prim ns) = false →
        m.mapValues (fuel + 1) r (.vint ns v) d =
          (if m.PanicOnIncompatibleTypes then
            some (r, d, some (incompatMsg (.prim ns) (tyOf d)))
          else some (r.addError (incompatMsg (.prim ns) (tyOf d)), d, none))) ∧
    (∀ (fuel : Nat) (r : Result) (ns : String) (v w : Int),
        ns ∉ intNames →
        m.mapValues (fuel + 1) r (.vint ns v) (.vint ns w) = some (r, .vint ns v, none)) := by
  constructor
  · intro fuel r ns v d hns hd hne
    simp only [Mapper.mapValues]
    have hds : derefForStruct (tyOf d) (Value.vint ns v) = .vint ns v := by
      simp [derefForStruct, hd]
    rw [hds]
    simp [hd, hcm, runCustomMappers, isIntType, isUintType, isFloatType, hns, hne, tyOf]
  · intro fuel r ns v w hns
    simp only [Mapper.mapValues]
    simp [derefForStruct, tyOf, Ty.kind, hcm, runCustomMappers, isIntType, isUintType,
      isFloatType, hns, Ty.beq]

/-- C9 witness: a `MyInt` (underlying int) value does not coerce into a
plain `int` destination — the incompatible-pair failure is recorded — but
copies into a `MyInt` destination via the exact-type path. -/
theorem claim_C9_witness :
    ({} : Mapper).mapValues 1 {} (.vint "MyInt" 5) (.vint "int" 0) =
      some (Result.addError {} (incompatMsg (.prim "MyInt") (.prim "int")),
        .vint "int" 0, none) ∧
    ({} : Mapper).mapValues 1 {} (.vint "MyInt" 5) (.vint "MyInt" 0) =
      some ({}, .vint "MyInt" 5, none) := by
  constructor
  · have h := (claim_C9 ({} : Mapper) rfl).1 0 {} "MyInt" 5 (.vint "int" 0)
      (by decide) rfl (by decide)
    simpa using h
  · exact (claim_C9 ({} : Mapper) rfl).2 0 {} "MyInt" 5 0 (by decide)

/-! ## C5 — empty source sequences still validate element types -/

/-- Defining equation of `mapSliceElems` on an empty element list. -/
theorem mapSliceElems_unfold_nil (m : Mapper) (g : Nat) (r : Result) (t : Ty) :
    m.mapSliceElems (g + 1) r .nil t = some (r, .nil, none) := rfl

/-- Defining equation of `mapSliceElems` on a non-empty element list. -/
theorem mapSliceElems_unfold_cons (m : Mapper) (g : Nat) (r : Result) (x : Value)
    (xs : VList) (t : Ty) :
    m.mapSliceElems (g + 1) r (.cons x xs) t =
      match m.mapValues g r x (zeroValue t) with
      | none => none
      | some (r', _, some p) => some (r', .nil, some p)
      | some (r', v, none) =>
          match m.mapSliceElems g r' xs t with
          | none => none
          | some (r2, vs, pan) => some (r2, .cons v vs, pan) := rfl

/-- Defining equation of `mapSlice` on a slice source. -/
theorem mapSlice_unfold (m : Mapper) (g : Nat) (r : Result) (es : Ty) (xs : VList)
    (d : Value) :
    m.mapSlice (g + 1) r (.vslice es xs) d =
      match m.mapSliceElems g r xs (tyOf d).elemTy with
      | none => none
      | some (r', _, some p) => some (r', d, some p)
      | some (r', mapped, none) =>
          if vlistLength xs == 0 then
            match m.checkArrayTypesAreCompatible g r' (.vslice es xs) d with
            | none => none
            | some (r2, some p) => some (r2, d, some p)
            | some (r2, none) => some (r2, .vslice (tyOf d).elemTy mapped, none)
          else some (r', .vslice (tyOf d).elemTy mapped, none) := rfl

/-- Defining equation of `checkArrayTypesAreCompatible` on a slice source. -/
theorem checkArray_unfold (m : Mapper) (g : Nat) (r : Result) (es : Ty) (xs : VList)
    (d : Value) :
    m.checkArrayTypesAreCompatible (g + 1) r (.vslice es xs) d =
      match m.mapValues g r (.vslice es (.cons (zeroValue es) .nil)) (.vptr (tyOf d) none) with
      | none => none
      | some (r', _, pan) => some (r', pan) := rfl

/-- `mapValues` on a slice-to-slice pair of distinct types delegates to
`mapSlice`. -/
theorem mapValues_unfold_slice_pair (m : Mapper) (hcm : m.CustomMappers = []) (g : Nat)
    (r : Result) (tes tde : Ty) (xs old : VList)
    (hne : Ty.beq (.tslice tde) (.tslice tes) = false) :
    m.mapValues (g + 1) r (.vslice tes xs) (.vslice tde old) =
      m.mapSlice g r (.vslice tes xs) (.vslice tde old) := by
  simp only [Mapper.mapValues]
  simp [derefForStruct, tyOf, Ty.kind, hcm, runCustomMappers, isIntType, isUintType,
    isFloatType, hne]

/-- `mapValues` on a pointer destination with a non-nil source allocates a
zero pointee, recurses, and attaches the result. -/
theorem mapValues_unfold_ptr_dest (m : Mapper) (hcm : m.CustomMappers = []) (g : Nat)
    (r : Result) (s : Value) (te : Ty) (o : Option Value)
    (hnil : valueIsNil s = false) :
    m.mapValues (g + 1) r s (.vptr te o) =
      match m.mapValues g r s (zeroValue te) with
      | none => none
      | some (r', _, some p) => some (r', .vptr te o, some p)
      | some (r', v, none) => some (r', .vptr te (some v), none) := by
  simp only [Mapper.mapValues]
  simp [derefForStruct, tyOf, Ty.kind, hcm, runCustomMappers, hnil, Ty.elemTy]

/-- C5: mapping an empty source slice into a slice of a different element
type runs one synthetic zero element through the traversal engine purely
for its outcome: whatever result (including recorded errors) or panic the
synthetic element pair produces is merged into the caller's result, while
the destination receives the empty sequence on the record path (no
synthetic element survives) and is left untouched on the abort path. -/
theorem claim_C5 (m : Mapper) (hcm : m.CustomMappers = []) (fuel : Nat) (r : Result)
    (tes tde : Ty) (old : VList)
    (hne : Ty.beq (.tslice tde) (.tslice tes) = false)
    (r1 : Result) (v1 : Value) (pan1 : Option String)
    (helem : m.mapValues (fuel + 1) r (zeroValue tes) (zeroValue tde) = some (r1, v1, pan1)) :
    (pan1 = none →
      m.mapValues (fuel + 8) r (.vslice tes .nil) (.vslice tde old) =
        some (r1, .vslice tde .nil, none)) ∧
    (∀ p, pan1 = some p →
      m.mapValues (fuel + 8) r (.vslice tes .nil) (.vslice tde old) =
        some (r1, .vslice tde old, some p)) := by
  have base : m.mapValues (fuel + 8) r (.vslice tes .nil) (.vslice tde old) =
      match m.mapValues (fuel + 1) r (zeroValue tes) (zeroValue tde) with
      | none => none
      | some (r2, _, some p) => some (r2, .vslice tde old, some p)
      | some (r2, _, none) => some (r2, .vslice tde .nil, none) := by
    rw [show fuel + 8 = (fuel + 7) + 1 from rfl,
      mapValues_unfold_slice_pair m hcm (fuel + 7) r tes tde .nil old hne,
      show fuel + 7 = (fuel + 6) + 1 from rfl, mapSlice_unfold,
      mapSliceElems_unfold_nil]
    simp only [vlistLength]
    rw [show fuel + 6 = (fuel + 5) + 1 from rfl, checkArray_unfold]
    rw [show (tyOf (Value.vslice tde old)) = Ty.tslice tde from rfl,
      show fuel + 5 = (fuel + 4) + 1 from rfl,
      mapValues_unfold_ptr_dest m hcm (fuel + 4) r
        (.vslice tes (.cons (zeroValue tes) .nil)) (.tslice tde) none rfl]
    rw [show zeroValue (Ty.tslice tde) = Value.vslice tde .nil from rfl,
      show fuel + 4 = (fuel + 3) + 1 from rfl,
      mapValues_unfold_slice_pair m hcm (fuel + 3) r tes tde
        (.cons (zeroValue tes) .nil) .nil hne,
      show fuel + 3 = (fuel + 2) + 1 from rfl, mapSlice_unfold,
      show fuel + 2 = (fuel + 1) + 1 from rfl, mapSliceElems_unfold_cons]
    rw [show (tyOf (Value.vslice tde VList.nil)).elemTy = tde from rfl]
    cases hmv : m.mapValues (fuel + 1) r (zeroValue tes) (zeroValue tde) with
    | none => simp [hmv, tyOf, Ty.elemTy, vlistLength]
    | some t3 =>
        obtain ⟨r2, v2, pan2⟩ := t3
        cases pan2 with
        | some p => simp [hmv, tyOf, Ty.elemTy, vlistLength]
        | none => simp [hmv, mapSliceElems_unfold_nil, tyOf, Ty.elemTy, vlistLength]
  rw [base, helem]
  constructor
  · intro hp; subst hp; rfl
  · intro p hp; subst hp; rfl

/-- C5 witness: an empty `[]string` source into an `[]int` destination —
with the abort switch off the synthetic zero element records the
string-to-int incompatible-pair failure and the destination becomes the
empty slice; with the switch on the same synthetic element's panic
propagates out. -/
theorem claim_C5_witness :
    ({} : Mapper).mapValues 9 {} (.vslice (.prim "string") .nil) (.vslice (.prim "int") .nil) =
      some (Result.addError {} (incompatMsg (.prim "string") (.prim "int")),
        .vslice (.prim "int") .nil, none) ∧
    ({ PanicOnIncompatibleTypes := true } : Mapper).mapValues 9 {}
        (.vslice (.prim "string") .nil) (.vslice (.prim "int") .nil) =
      some ({}, .vslice (.prim "int") .nil,
        some (incompatMsg (.prim "string") (.prim "int"))) := by
  constructor
  · exact (claim_C5 ({} : Mapper) rfl 1 {} (.prim "string") (.prim "int") .nil (by decide)
      (Result.addError {} (incompatMsg (.prim "string") (.prim "int")))
      (.vint "int" 0) none rfl).1 rfl
  · exact (claim_C5 ({ PanicOnIncompatibleTypes := true } : Mapper) rfl 1 {}
      (.prim "string") (.prim "int") .nil (by decide)
      {} (.vint "int" 0) (some (incompatMsg (.prim "string") (.prim "int"))) rfl).2
      (incompatMsg (.prim "string") (.prim "int")) rfl

/-! ## C10 — scope-stack discipline -/

/-- C10: every `mapValues` call that returns without a pending panic
leaves the scope stack exactly as it found it (per-field pushes are
matched by pops, including when a non-fatal failure is recorded);
`findSourceField` either leaves the result untouched or appends exactly
the dot-joined scope path as the missing-field entry; and the result of a
successful `Map` call carries an empty scope stack. -/
theorem claim_C10 :
    (∀ (m : Mapper) (n : Nat) (r : Result) (s d : Value) (r' : Result) (d' : Value),
        m.mapValues n r s d = some (r', d', none) → r'.scope = r.scope) ∧
    (∀ (m : Mapper) (r : Result) (s : Value) (f : TField) (r' : Result) (ov : Option Value),
        m.findSourceField r s f = .ok (r', ov) →
        r'.scope = r.scope ∧ r'.Errors = r.Errors ∧
          (r'.MissingSourceFields = r.MissingSourceFields ∨
            r'.MissingSourceFields =
              r.MissingSourceFields ++ [String.intercalate "." r.scope])) ∧
    (∀ (m : Mapper) (fuel : Nat) (s : Value) (t : Ty) (dv : Value) (res : Result) (v' : Value),
        m.Map fuel s (.vptr t (some dv)) = some (.ok (res, v')) → res.scope = []) := by
  refine ⟨?_, ?_, ?_⟩
  · intro m n r s d r' d' h
    exact ((engineInv m n).1 _ _ _ _ _ _ h).2.2.1 rfl
  · intro m r s f r' ov h
    exact findSourceField_inv m r s f r' ov h
  · intro m fuel s t dv res v' h
    simp only [Mapper.Map] at h
    cases hmv : m.mapValues fuel {} s dv with
    | none => rw [hmv] at h; exact (by simp at h)
    | some t3 =>
        obtain ⟨r0, d0, pan0⟩ := t3
        rw [hmv] at h
        cases pan0 with
        | some p => simp at h
        | none =>
            have hsc : r0.scope = ({} : Result).scope :=
              ((engineInv m fuel).1 _ _ _ _ _ _ hmv).2.2.1 rfl
            simp only at h
            by_cases hl : r0.MissingSourceFields.length > 0
            · rw [if_pos hl] at h
              by_cases hpm : m.PanicOnMissingField = true
              · rw [if_pos hpm] at h; simp at h
              · rw [if_neg hpm] at h
                cases h
                simpa [Result.addError] using hsc
            · rw [if_neg hl] at h
              cases h
              simpa using hsc

/-- C10 witness: the scope facts at concrete calls — a successful nested
mapping preserves the (empty) scope, a failed field lookup under scope
`["X"]` appends exactly `"X"`, and a completed `Map` yields an empty
scope. -/
theorem claim_C10_witness :
    (({ MissingSourceFields := ["B", "C"], Errors := [], scope := [] } : Result).scope =
        ({} : Result).scope) ∧
    ((({ scope := ["X"], MissingSourceFields := ["X"] } : Result).scope =
        ({ scope := ["X"] } : Result).scope) ∧
      ({ scope := ["X"], MissingSourceFields := ["X"] } : Result).Errors =
        ({ scope := ["X"] } : Result).Errors ∧
      ((({ scope := ["X"], MissingSourceFields := ["X"] } : Result).MissingSourceFields =
          ({ scope := ["X"] } : Result).MissingSourceFields) ∨
        ({ scope := ["X"], MissingSourceFields := ["X"] } : Result).MissingSourceFields =
          ({ scope := ["X"] } : Result).MissingSourceFields ++
            [String.intercalate "." (["X"] : List String)])) ∧
    ({ MissingSourceFields := ["B"],
       Errors := [incompatMsg (.prim "string") (.prim "int"), missingMsg ["B"]],
       scope := [] } : Result).scope = [] :=
  ⟨claim_C10.1 ({ PanicOnMissingField := true } : Mapper) 20 {} c1src (zeroValue c1destTy)
      { MissingSourceFields := ["B", "C"], Errors := [], scope := [] }
      (.vstruct "" "" (.cons (.mk "B" false [] (.vstr ""))
        (.cons (.mk "C" false [] (.vstr ""))
          (.cons (.mk "A" false [] (.vint "int" 1)) .nil)))) rfl,
    claim_C10.2.1 ({} : Mapper) { scope := ["X"] } c1src (.mk "B" false [] (.prim "string"))
      { scope := ["X"], MissingSourceFields := ["X"] } none rfl,
    claim_C10.2.2 ({} : Mapper) 20 c2src c3destTy (zeroValue c3destTy)
      { MissingSourceFields := ["B"],
        Errors := [incompatMsg (.prim "string") (.prim "int"), missingMsg ["B"]],
        scope := [] }
      (.vptr c3destTy (some (.vstruct "" "" (.cons (.mk "B" false [] (.vstr ""))
        (.cons (.mk "Foo" false [] (.vint "int" 0)) .nil))))) rfl⟩

end GoMapper
